import Mathlib

/-!
Shallow embedding of the StreamForge job pipeline (an Express + BullMQ video
transcoding service) and proofs about it.

Sources embedded here:
- `src/server-async.js` — upload endpoint, SSE progress endpoint, delivery
  (stream) endpoint with HTTP range handling;
- `src/worker.js` — `processVideoJob`: per-variant transcoding loop, progress
  mapping, per-variant uploads;
- `src/lib/queue.js` — the queue's default job options (`attempts: 3`,
  exponential backoff).

Machine numbers in the JavaScript are modelled as `ℤ`/`ℕ` (with `Option` for
`NaN`, since `parseInt` can fail), fractional ffmpeg percentages as `ℚ`, and
the object store as an explicit key-indexed map.
-/

namespace StreamForge

/-! ### JavaScript-style numeric and string helpers -/

/-- `Math.round` on a rational: round half away from zero is JS semantics for
positive arguments; `Math.round(x)` is `⌊x + 1/2⌋` (half rounds toward `+∞`). -/
def jsRound (q : ℚ) : ℤ := ⌊q + 1 / 2⌋

/-- Numeric value of a list of decimal digit characters. -/
def digitsVal (cs : List Char) : ℕ :=
  cs.foldl (fun a c => a * 10 + (c.toNat - '0'.toNat)) 0

/-- JS `parseInt(s, 10)`: skip leading spaces, optional sign, then the longest
run of leading decimal digits; `none` models `NaN` (no digits found). -/
def jsParseInt (s : String) : Option ℤ :=
  match s.data.dropWhile (fun c => c == ' ') with
  | '-' :: rest =>
    if rest.takeWhile Char.isDigit = [] then none
    else some (-(digitsVal (rest.takeWhile Char.isDigit) : ℤ))
  | '+' :: rest =>
    if rest.takeWhile Char.isDigit = [] then none
    else some (digitsVal (rest.takeWhile Char.isDigit) : ℤ)
  | cs =>
    if cs.takeWhile Char.isDigit = [] then none
    else some (digitsVal (cs.takeWhile Char.isDigit) : ℤ)

/-- Whether `p` is an initial segment of `cs` (kernel-reducible). -/
def leadsWith : List Char → List Char → Bool
  | [], _ => true
  | _ :: _, [] => false
  | p :: ps, c :: cs => p == c && leadsWith ps cs

/-- JS `s.replace(pat, "")` for a plain-string pattern: remove the first
occurrence of `pat` (the regex `/bytes=/` has no metacharacters). -/
def removeFirst (pat : List Char) : List Char → List Char
  | [] => []
  | c :: cs =>
    if leadsWith pat (c :: cs) then (c :: cs).drop pat.length
    else c :: removeFirst pat cs

/-- JS `s.split(sep)` for a one-character separator, on char lists:
`splitChar sep cs []` splits `cs` at every `sep`, keeping empty pieces. -/
def splitChar (sep : Char) : List Char → List Char → List (List Char)
  | [], acc => [acc.reverse]
  | c :: rest, acc =>
    if c == sep then acc.reverse :: splitChar sep rest []
    else splitChar sep rest (c :: acc)

/-- String shown for an optional JS number: `none` is `NaN`. -/
def jsNumStr : Option ℤ → String
  | none => "NaN"
  | some v => toString v

/-! ### Delivery endpoint (`GET /api/stream/:id/:quality`, `src/server-async.js`)

The handler looks the job up in the queue, requires state `completed`, resolves
the variant's object key from `job.returnvalue`, `HeadObject`s the key for its
size, and then either serves the full body (no `Range` header) or parses
`Range` as `range.replace(/bytes=/, "").split("-")` with
`start = parseInt(parts[0], 10)` and `end = parts[1] ? parseInt(parts[1], 10)
: fileSize - 1`, forwards `bytes=start-end` to the store and replies 206. Any
store error is caught and answered with 500 `Streaming Error`. -/

/-- `range.replace(/bytes=/, "").split("-")` from the handler. -/
def rangeParts (range : String) : List String :=
  (splitChar '-' (removeFirst "bytes=".data range.data) []).map (fun cs => String.mk cs)

/-- `const start = parseInt(parts[0], 10)` (a missing part is `undefined`,
which `parseInt` turns into `NaN`). -/
def rangeStart (range : String) : Option ℤ :=
  jsParseInt ((rangeParts range).getD 0 "")

/-- `const end = parts[1] ? parseInt(parts[1], 10) : fileSize - 1`; an absent
or empty `parts[1]` is falsy. -/
def rangeEnd (range : String) (fileSize : ℤ) : Option ℤ :=
  if (rangeParts range).getD 1 "" = "" then some (fileSize - 1)
  else jsParseInt ((rangeParts range).getD 1 "")

/-- `const chunksize = (end - start) + 1` (NaN-propagating). -/
def chunkSize (s e : Option ℤ) : Option ℤ :=
  match s, e with
  | some a, some b => some (b - a + 1)
  | _, _ => none

/-- Model of the object-store gateway's ranged `GetObject` (an external
collaborator per §2/§6 of the spec). For `Range: bytes=a-b`: a first byte
position at or past the object's size is rejected (`InvalidRange`); a
satisfiable range is served with the last byte position clamped to `size - 1`;
a syntactically invalid range (`NaN`, or last before first) makes the store
ignore the header and serve the full object. -/
def s3GetRange (obj : List ℕ) (start? stop? : Option ℤ) : Except Unit (List ℕ) :=
  match start?, stop? with
  | some a, some b =>
    if 0 ≤ a ∧ a < (obj.length : ℤ) ∧ a ≤ b then
      Except.ok ((obj.drop a.toNat).take (min b ((obj.length : ℤ) - 1) - a + 1).toNat)
    else if (obj.length : ℤ) ≤ a then Except.error ()
    else Except.ok obj
  | _, _ => Except.ok obj

/-- A job as the HTTP handlers see it through BullMQ: `getState()` string,
`job.progress` (possibly unset) and `job.returnvalue` (the variant → object
key map produced by the worker). -/
structure QueueJob where
  id : String
  state : String
  progress : Option ℤ
  returnvalue : List (String × String)
  deriving DecidableEq, Repr

/-- An HTTP response as assembled by the delivery endpoint: status code, the
headers it sets, the streamed body and the JSON error message if any. -/
structure HttpResp where
  status : ℕ
  contentRange : Option String := none
  acceptRanges : Option String := none
  contentLength : Option ℤ := none
  contentType : Option String := none
  body : List ℕ := []
  errMsg : Option String := none
  deriving DecidableEq, Repr

/-- The stream handler of `src/server-async.js` lines 233–304, with the object
store passed in as a key-indexed map (`none` models a key the `HeadObject`
call rejects, which the `catch` turns into a 500). -/
def streamEndpoint (store : String → Option (List ℕ)) (job? : Option QueueJob)
    (quality : String) (rangeHeader : Option String) : HttpResp :=
  match job? with
  | none => { status := 404, errMsg := some "Video not found" }
  | some job =>
    if job.state ≠ "completed" then
      { status := 404, errMsg := some "Video still processing" }
    else
      match job.returnvalue.lookup quality with
      | none => { status := 404, errMsg := some "Quality not available" }
      | some objectKey =>
        if objectKey = "" then { status := 404, errMsg := some "Quality not available" }
        else
          match store objectKey with
          | none => { status := 500, errMsg := some "Streaming Error" }
          | some obj =>
            match rangeHeader with
            | some range =>
              match s3GetRange obj (rangeStart range) (rangeEnd range (obj.length : ℤ)) with
              | Except.error _ => { status := 500, errMsg := some "Streaming Error" }
              | Except.ok window =>
                { status := 206
                  contentRange := some ("bytes " ++ jsNumStr (rangeStart range) ++ " -"
                    ++ jsNumStr (rangeEnd range (obj.length : ℤ)) ++ "/"
                    ++ toString (obj.length : ℤ))
                  acceptRanges := some "bytes"
                  contentLength := chunkSize (rangeStart range) (rangeEnd range (obj.length : ℤ))
                  contentType := some "video/mp4"
                  body := window }
            | none =>
              { status := 200, contentType := some "video/mp4", body := obj }

/-- A store holding one 100-byte object under the key the worker would use. -/
def demoStore : String → Option (List ℕ) :=
  fun k => if k = "transcoded/1/720p.mp4" then some (List.replicate 100 7) else none

/-- A completed job whose result map offers the `720p` variant. -/
def demoJob : QueueJob :=
  { id := "1", state := "completed", progress := some 100
    returnvalue := [("720p", "transcoded/1/720p.mp4")] }

/-! ### Worker (`processVideoJob`, `src/worker.js`)

The worker downloads the input, then runs the three configured qualities in
sequence through ffmpeg. Each ffmpeg run emits progress ticks; the handler
maps a tick's `progress.percent || 0` to
`Math.round((completedQualities * 100 + currentPercent) / qualities.length)`
and calls `job.updateProgress`. On a quality's `end` event the counter is
bumped and the output is uploaded under
`transcoded/JOBID/QUALITY.mp4`, recorded in the `output` map. On `error`
the promise rejects with the error and the loop stops (the `await` throws);
nothing uploaded so far is deleted. On full success the job's return value is
the `output` map. -/

/-- A configured transformation target (the `qualities` array entries). -/
structure Variant where
  name : String
  width : ℕ
  height : ℕ
  bitrate : String
  deriving DecidableEq, Repr

/-- The `qualities` array of `src/worker.js`. -/
def qualities : List Variant :=
  [⟨"1080p", 1920, 1080, "5000k"⟩, ⟨"720p", 1280, 720, "2500k"⟩, ⟨"360p", 640, 360, "1000k"⟩]

/-- The variant names in configuration order. -/
def variantNames : List String := qualities.map Variant.name

/-- Equality on `Except` outcomes is decidable componentwise. -/
def exceptEqDec {ε α : Type} [DecidableEq ε] [DecidableEq α] : DecidableEq (Except ε α)
  | Except.ok a, Except.ok b =>
    if h : a = b then isTrue (h ▸ rfl) else isFalse (fun he => h (Except.ok.inj he))
  | Except.error a, Except.error b =>
    if h : a = b then isTrue (h ▸ rfl) else isFalse (fun he => h (Except.error.inj he))
  | Except.ok _, Except.error _ => isFalse (fun he => Except.noConfusion he)
  | Except.error _, Except.ok _ => isFalse (fun he => Except.noConfusion he)

instance {ε α : Type} [DecidableEq ε] [DecidableEq α] : DecidableEq (Except ε α) :=
  exceptEqDec

/-- One ffmpeg invocation as the worker observes it: the percent values of its
`progress` ticks (`none` when the tool emits no percent, i.e.
`progress.percent` is `undefined`) and whether it ends with `end` or with
`error reason`. -/
structure ToolRun where
  ticks : List (Option ℚ)
  result : Except String Unit
  deriving DecidableEq, Repr

/-- `const transcodeKey = ` ``transcoded/${job.id}/${quality.name}.mp4``. -/
def transcodeKey (jobId name : String) : String :=
  "transcoded/" ++ jobId ++ "/" ++ name ++ ".mp4"

/-- The job-progress values reported while one quality transcodes with
`completedQualities = completed`: each tick's
`Math.round((completedQualities * 100 + (progress.percent || 0)) / total)`. -/
def variantProgressEvents (completed total : ℕ) (ticks : List (Option ℚ)) : List ℤ :=
  ticks.map (fun p => jsRound (((completed : ℚ) * 100 + p.getD 0) / (total : ℚ)))

/-- What one attempt of `processVideoJob` did: the `updateProgress` values in
order, the object keys uploaded to the store in order, the accumulated
`output` map, and whether the processor returned (`ok`) or rejected with a
reason. -/
structure WorkerResult where
  progressEvents : List ℤ
  uploaded : List String
  output : List (String × String)
  outcome : Except String Unit
  deriving DecidableEq, Repr

/-- The `for (const quality of qualities)` loop of `processVideoJob`, run with
`completed` qualities already done: emit this quality's progress ticks; on
`error` reject with the reason (remaining qualities never run, uploads so far
stay); on `end` upload `transcodeKey`, record it in `output`, and continue. -/
def runQualities (jobId : String) (tool : String → ToolRun) (total : ℕ) :
    List Variant → ℕ → WorkerResult
  | [], _ => ⟨[], [], [], Except.ok ()⟩
  | v :: rest, completed =>
    match (tool v.name).result with
    | Except.error e =>
      ⟨variantProgressEvents completed total (tool v.name).ticks, [], [], Except.error e⟩
    | Except.ok _ =>
      let r := runQualities jobId tool total rest (completed + 1)
      ⟨variantProgressEvents completed total (tool v.name).ticks ++ r.progressEvents,
        transcodeKey jobId v.name :: r.uploaded,
        (v.name, transcodeKey jobId v.name) :: r.output,
        r.outcome⟩

/-- One attempt of `processVideoJob` (`src/worker.js` lines 8–69), with the
external transformation tool abstracted as the per-variant `ToolRun` it
produces. -/
def processVideoJob (jobId : String) (tool : String → ToolRun) : WorkerResult :=
  runQualities jobId tool qualities.length qualities 0

/-- The variant name at position `k` in configuration order. -/
def variantName (k : ℕ) : String := variantNames.getD k ""

/-- A tool whose every run succeeds after one half-way progress tick. -/
def alwaysOkTool : String → ToolRun := fun _ => ⟨[some 50], Except.ok ()⟩

/-- A tool that transcodes `1080p` fine and then dies on `720p`. -/
def failing720Tool : String → ToolRun :=
  fun n => if n = "720p" then ⟨[], Except.error "boom"⟩ else ⟨[], Except.ok ()⟩

/-- Modelled from the spec: the completion bookkeeping lives in BullMQ (the
consumed queue library), not in this repository — a processor that returns
normally makes the job `completed` with the returned map as `returnvalue`
(§4.1 `complete`), and one that rejects surfaces the failure (§4.1 `fail`). -/
def jobAfterRun (jobId : String) (tool : String → ToolRun) : String × List (String × String) :=
  match (processVideoJob jobId tool).outcome with
  | Except.ok _ => ("completed", (processVideoJob jobId tool).output)
  | Except.error _ => ("failed", [])

/-! ### Queue retry configuration (`src/lib/queue.js`)

`videoQueue` is created with `defaultJobOptions: { attempts: 3, backoff:
{ type: 'exponential', delay: 2000 } }`. The claim/retry machinery itself is
BullMQ's, so it is modelled from the spec's Ledger description (§4.1). -/

/-- The `attempts: 3` default job option of `videoQueue`. -/
def maxAttempts : ℕ := 3

/-- A job as the Ledger tracks it: its state string and how many attempts have
started. -/
structure LedgerJob where
  state : String
  attemptsMade : ℕ
  deriving DecidableEq, Repr

/-- Modelled from the spec: `submit` (§4.1) creates the job `queued` with no
attempts made; the durable ledger is BullMQ/Redis, not repository code. -/
def submitJob : LedgerJob := ⟨"queued", 0⟩

/-- Modelled from the spec: `claim` (§4.1) atomically moves a `queued` job to
`active` and increments its attempt count; on any other state it is a no-op
(there is nothing to claim). -/
def claimJob (j : LedgerJob) : LedgerJob :=
  if j.state = "queued" then ⟨"active", j.attemptsMade + 1⟩ else j

/-- Modelled from the spec: `fail` (§4.1) re-queues an `active` job while
attempts remain (fewer than `maxAttempts` made) and otherwise makes it
terminally `failed`; BullMQ implements exactly this for `attempts: 3`. -/
def failJob (j : LedgerJob) : LedgerJob :=
  if j.state = "active" then
    if j.attemptsMade < maxAttempts then ⟨"queued", j.attemptsMade⟩
    else ⟨"failed", j.attemptsMade⟩
  else j

/-- One round of a job whose attempt fails: it is claimed and then failed. -/
def retryStep (j : LedgerJob) : LedgerJob := failJob (claimJob j)

/-- The job after `n` claim-then-fail rounds, every attempt failing. -/
def allFailIter (n : ℕ) : LedgerJob := retryStep^[n] submitJob

/-! ### Progress stream (`GET /api/jobs/:id/progress`, `src/server-async.js`)

The handler 404s when the queue has no such job; otherwise it opens an SSE
stream, immediately writes a snapshot `{id, status, progress || 0}`, then
attaches `progress`/`failed`/`completed` listeners to the shared
`queueEvents`. Each listener ignores events of other jobs; a matching
`progress` event is forwarded; a matching `failed` or `completed` event is
forwarded and then `cleanup()` detaches all listeners and ends the
response. -/

/-- A `QueueEvents` event as the listeners receive it. -/
inductive QueueEvent where
  | progressEv (jobId : String) (data : ℤ)
  | failedEv (jobId : String) (failedReason : String)
  | completedEv (jobId : String) (returnvalue : List (String × String))
  deriving DecidableEq, Repr

/-- A message written on one SSE connection. -/
inductive SseMessage where
  | snapshot (id status : String) (progress : ℤ)
  | progressMsg (id : String) (progress : ℤ)
  | failedMsg (id : String) (failedReason : String) (message : String)
  | completedMsg (id : String) (returnvalue : List (String × String)) (message : String)
  deriving DecidableEq, Repr

/-- Whether an incoming queue event is a terminal event for job `id`. -/
def isTerminalFor (id : String) : QueueEvent → Bool
  | QueueEvent.failedEv j _ => j = id
  | QueueEvent.completedEv j _ => j = id
  | QueueEvent.progressEv _ _ => false

/-- Whether a delivered message is a terminal (failed/completed) message. -/
def isTerminalMsg : SseMessage → Bool
  | SseMessage.failedMsg _ _ _ => true
  | SseMessage.completedMsg _ _ _ => true
  | _ => false

/-- Whether a delivered message is a live progress message. -/
def isProgressMsg : SseMessage → Bool
  | SseMessage.progressMsg _ _ => true
  | _ => false

/-- The live part of one SSE subscription for job `id`: the messages the
three listeners write for the given stream of queue events, paired with
whether the server has ended the response (`cleanup()` ran). A matching
terminal event is written and then the listeners are detached, so later
events deliver nothing. -/
def sseRun (id : String) : List QueueEvent → List SseMessage × Bool
  | [] => ([], false)
  | QueueEvent.progressEv j d :: rest =>
    if j = id then
      ((SseMessage.progressMsg id d) :: (sseRun id rest).1, (sseRun id rest).2)
    else sseRun id rest
  | QueueEvent.failedEv j r :: rest =>
    if j = id then ([SseMessage.failedMsg id r "Job Failed"], true) else sseRun id rest
  | QueueEvent.completedEv j rv :: rest =>
    if j = id then ([SseMessage.completedMsg id rv "Job Completed"], true) else sseRun id rest

/-- The progress endpoint's response: a 404 JSON error, or the opened event
stream with everything written on it and whether the server closed it. -/
inductive ProgressResp where
  | notFound (status : ℕ) (error : String)
  | eventStream (status : ℕ) (messages : List SseMessage) (serverClosed : Bool)
  deriving DecidableEq, Repr

/-- The SSE handler of `src/server-async.js` lines 108–191: 404 for an unknown
job; otherwise a 200 event stream whose first write is the snapshot
`{id: job.id, status, progress: job.progress || 0}`, followed by the live
messages for the queue events that then arrive. -/
def progressEndpoint (job? : Option QueueJob) (id : String) (events : List QueueEvent) :
    ProgressResp :=
  match job? with
  | none => ProgressResp.notFound 404 "Job not found"
  | some job =>
    ProgressResp.eventStream 200
      (SseMessage.snapshot job.id job.state (job.progress.getD 0) :: (sseRun id events).1)
      (sseRun id events).2

/-! ### Upload endpoint (`POST /api/upload`, `src/server-async.js`)

Multer is configured with `limits: { fileSize: 500 * 1024 * 1024 }` and a
`fileFilter` accepting exactly the lowercased extensions `.mp4`, `.avi`,
`.mov`, `.webm`. A request with no file part passes through with `req.file`
unset, and the handler answers `400 No video file provided` before any job is
queued. A request whose posted file fails the filter is aborted by multer:
the filter calls `cb(new Error('Invalid type file'), false)`, multer hands
that error to `next`, and Express's default error handler answers it (status
500) — the route handler never runs; an oversized file likewise aborts with
multer's `LIMIT_FILE_SIZE` error. Only an accepted file reaches the handler,
which uploads it to the store and adds a transcode job to `videoQueue`. -/

/-- An incoming multipart file: its client-supplied name and its size. -/
structure UploadFile where
  originalname : String
  size : ℕ
  deriving DecidableEq, Repr

/-- Node's `path.extname` on the basename characters: the suffix from the last
dot, empty when there is no dot or the only dot leads a hidden file. -/
def extnameChars (cs : List Char) : List Char :=
  match ((cs.reverse.takeWhile (fun c => c ≠ '/')).takeWhile (fun c => c ≠ '.')) with
  | revExt =>
    match (cs.reverse.takeWhile (fun c => c ≠ '/')).drop revExt.length with
    | [] => []
    | _ :: stem => if stem = [] then [] else '.' :: revExt.reverse

/-- `path.extname(file.originalname)`. -/
def extname (s : String) : String := String.mk (extnameChars s.data)

/-- JS `toLowerCase()` (ASCII, which is all the extensions use). -/
def lowerStr (s : String) : String := String.mk (s.data.map Char.toLower)

/-- The `allowed` extension list of the multer `fileFilter`. -/
def allowedExtensions : List String := [".mp4", ".avi", ".mov", ".webm"]

/-- The multer `fileFilter`: `allowed.includes(path.extname(originalname)
.toLowerCase())`. -/
def fileFilterAccepts (originalname : String) : Bool :=
  allowedExtensions.contains (lowerStr (extname originalname))

/-- The multer `limits.fileSize` option. -/
def maxFileSize : ℕ := 500 * 1024 * 1024

/-- What the multer middleware did to the request before the route handler
could run: a request with no file part passes through (`req.file` unset); a
file failing the `fileFilter` or exceeding `limits.fileSize` makes multer
abort the request with that error, so the handler never runs; an accepted
file becomes `req.file`. -/
inductive MulterStage where
  | noFile
  | aborted (error : String)
  | accepted (f : UploadFile)
  deriving DecidableEq, Repr

/-- The multer middleware `upload.single('video')`: the `fileFilter` is
consulted first (when the part's headers arrive) and rejects with
`Invalid type file`; a file passing the filter but streaming past
`limits.fileSize` aborts with multer's `LIMIT_FILE_SIZE` error. -/
def multerStage (file? : Option UploadFile) : MulterStage :=
  match file? with
  | none => MulterStage.noFile
  | some f =>
    if fileFilterAccepts f.originalname then
      if f.size ≤ maxFileSize then MulterStage.accepted f
      else MulterStage.aborted "LIMIT_FILE_SIZE"
    else MulterStage.aborted "Invalid type file"

/-- The upload handler's observable outcome: status, JSON error if any,
whether a transcode job was added to the queue, and the success message. -/
structure UploadOutcome where
  status : ℕ
  error : Option String
  jobCreated : Bool
  message : Option String
  deriving DecidableEq, Repr

/-- The handler body of `POST /api/upload` (`src/server-async.js` lines
40–68): no accepted file means `400 No video file provided` and no job;
otherwise the file is stored and a job is queued. -/
def uploadHandler (reqFile : Option UploadFile) : UploadOutcome :=
  match reqFile with
  | none => ⟨400, some "No video file provided", false, none⟩
  | some _ => ⟨200, none, true, some "Video uploaded and queued for processing"⟩

/-- The whole upload request path: a request multer aborts is answered by
Express's default error handler (status 500, carrying the error) and never
reaches the route handler; otherwise the handler of lines 40–68 runs with
`req.file` unset or set. -/
def uploadRequest (file? : Option UploadFile) : UploadOutcome :=
  match multerStage file? with
  | MulterStage.noFile => uploadHandler none
  | MulterStage.aborted e => ⟨500, some e, false, none⟩
  | MulterStage.accepted f => uploadHandler (some f)

/-! ## Theorems -/

/-- Helper: the store rejects a ranged read whose first byte position is at or
past the object's size (`InvalidRange`). -/
theorem s3GetRange_oob (obj : List ℕ) (a b : ℤ) (h : (obj.length : ℤ) ≤ a) :
    s3GetRange obj (some a) (some b) = Except.error () := by
  simp only [s3GetRange]
  rw [if_neg, if_pos h]
  rintro ⟨-, hlt, -⟩
  omega

/-- Helper: the store serves an in-bounds ranged read as the byte window from
`a` through `b`. -/
theorem s3GetRange_ok (obj : List ℕ) (a b : ℤ) (h0 : 0 ≤ a) (hab : a ≤ b)
    (hb : b < (obj.length : ℤ)) :
    s3GetRange obj (some a) (some b) =
      Except.ok ((obj.drop a.toNat).take (b - a + 1).toNat) := by
  have hmin : min b ((obj.length : ℤ) - 1) = b := min_eq_left (by omega)
  simp only [s3GetRange, hmin]
  rw [if_pos ⟨h0, by omega, hab⟩]

/-- C1: the claim says an out-of-bounds range such as `bytes=S-` for an object
of size `S` gets a range-not-satisfiable (416) response. It does not: the
handler never validates the parsed range, and for `bytes=100-` on a 100-byte
object the store's rejection is caught and answered 500, not 416 — and on a
store that accepted it, the handler would answer 206. -/
theorem c1_counterexample :
    (streamEndpoint demoStore (some demoJob) "720p" (some "bytes=100-")).status = 500 ∧
    (streamEndpoint demoStore (some demoJob) "720p" (some "bytes=100-")).status ≠ 416 := by
  decide

/-- C1 (amended): a range whose parsed start lies at or beyond the object size
is never answered 416: the handler forwards it verbatim to the object store,
whose rejection is caught and answered 500 `Streaming Error`. -/
theorem c1_oob_range_is_500 (store : String → Option (List ℕ)) (job : QueueJob)
    (quality range key : String) (obj : List ℕ) (a b : ℤ)
    (hstate : job.state = "completed")
    (hlookup : job.returnvalue.lookup quality = some key)
    (hkey : key ≠ "")
    (hstore : store key = some obj)
    (hstart : rangeStart range = some a)
    (hend : rangeEnd range (obj.length : ℤ) = some b)
    (hge : (obj.length : ℤ) ≤ a) :
    streamEndpoint store (some job) quality (some range) =
      { status := 500, errMsg := some "Streaming Error" } := by
  simp [streamEndpoint, hstate, hlookup, hkey, hstore, hstart, hend,
    s3GetRange_oob obj a b hge]

/-- C1 witness: the amended statement at the demo store and job, for
`Range: bytes=100-` against a 100-byte object. -/
theorem c1_oob_range_witness :
    streamEndpoint demoStore (some demoJob) "720p" (some "bytes=100-") =
      { status := 500, errMsg := some "Streaming Error" } :=
  c1_oob_range_is_500 demoStore demoJob "720p" "bytes=100-" "transcoded/1/720p.mp4"
    (List.replicate 100 7) 100 99 (by decide) (by decide) (by decide) (by decide)
    (by decide) (by decide) (by decide)

/-- C4: the claim says the 206 response carries `Content-Range` exactly equal
to `bytes start-end/size`. The handler's template has a stray space,
``bytes ${start} -${end}/${fileSize}``, so for `bytes=10-19` on a 100-byte
object the header is `bytes 10 -19/100`, not `bytes 10-19/100`. -/
theorem c4_counterexample :
    (streamEndpoint demoStore (some demoJob) "720p" (some "bytes=10-19")).status = 206 ∧
    (streamEndpoint demoStore (some demoJob) "720p" (some "bytes=10-19")).contentRange =
      some "bytes 10 -19/100" ∧
    some "bytes 10 -19/100" ≠ some "bytes 10-19/100" := by
  decide

/-- C4 (amended): an in-bounds `Range: bytes=start-end` on a completed job's
available variant is answered 206 with `Accept-Ranges: bytes`,
`Content-Length = end - start + 1` and exactly the requested byte window from
the store's ranged read — but the `Content-Range` header reads
`bytes start -end/size`, with a space before the dash, instead of the claimed
`bytes start-end/size`. -/
theorem c4_inbounds_range (store : String → Option (List ℕ)) (job : QueueJob)
    (quality range key : String) (obj : List ℕ) (a b : ℤ)
    (hstate : job.state = "completed")
    (hlookup : job.returnvalue.lookup quality = some key)
    (hkey : key ≠ "")
    (hstore : store key = some obj)
    (hstart : rangeStart range = some a)
    (hend : rangeEnd range (obj.length : ℤ) = some b)
    (h0 : 0 ≤ a) (hab : a ≤ b) (hb : b < (obj.length : ℤ)) :
    streamEndpoint store (some job) quality (some range) =
      { status := 206
        contentRange := some ("bytes " ++ toString a ++ " -" ++ toString b ++ "/"
          ++ toString (obj.length : ℤ))
        acceptRanges := some "bytes"
        contentLength := some (b - a + 1)
        contentType := some "video/mp4"
        body := (obj.drop a.toNat).take (b - a + 1).toNat } := by
  simp [streamEndpoint, hstate, hlookup, hkey, hstore, hstart, hend,
    s3GetRange_ok obj a b h0 hab hb, chunkSize, jsNumStr]

/-- C4 witness: the amended statement for `Range: bytes=10-19` against the
100-byte demo object. -/
theorem c4_inbounds_range_witness :
    streamEndpoint demoStore (some demoJob) "720p" (some "bytes=10-19") =
      { status := 206
        contentRange := some ("bytes " ++ toString (10 : ℤ) ++ " -" ++ toString (19 : ℤ)
          ++ "/" ++ toString (((List.replicate 100 7).length : ℤ)))
        acceptRanges := some "bytes"
        contentLength := some (19 - 10 + 1)
        contentType := some "video/mp4"
        body := (((List.replicate 100 7 : List ℕ)).drop (10 : ℤ).toNat).take
          ((19 : ℤ) - 10 + 1).toNat } :=
  c4_inbounds_range demoStore demoJob "720p" "bytes=10-19" "transcoded/1/720p.mp4"
    (List.replicate 100 7) 10 19 (by decide) (by decide) (by decide) (by decide)
    (by decide) (by decide) (by decide) (by decide) (by decide)

/-- C2: with the queue configured with `attempts: 3`, a job whose every
attempt fails is terminally `failed` after exactly `maxAttempts = 3` attempts:
the first two failures re-queue it (the `maxAttempts − 1 = 2` retries), no
earlier round leaves it `failed`, and after the third it stays `failed`
forever with exactly 3 attempts made. -/
theorem c2_failed_after_exactly_three :
    allFailIter maxAttempts = ⟨"failed", 3⟩ ∧
    (∀ k, k < maxAttempts → (allFailIter k).state ≠ "failed") ∧
    (∀ k, k < maxAttempts - 1 → (allFailIter (k + 1)).state = "queued") ∧
    (∀ m, allFailIter (maxAttempts + m) = allFailIter maxAttempts) := by
  refine ⟨by decide, by decide, by decide, ?_⟩
  intro m
  have h3 : allFailIter maxAttempts = ⟨"failed", 3⟩ := by decide
  have hfix : retryStep ⟨"failed", 3⟩ = ⟨"failed", 3⟩ := by decide
  calc allFailIter (maxAttempts + m)
      = retryStep^[m + maxAttempts] submitJob := by rw [Nat.add_comm]; rfl
    _ = retryStep^[m] (allFailIter maxAttempts) := by
        rw [Function.iterate_add_apply]; rfl
    _ = retryStep^[m] ⟨"failed", 3⟩ := by rw [h3]
    _ = ⟨"failed", 3⟩ := Function.iterate_fixed hfix m
    _ = allFailIter maxAttempts := h3.symm

/-- C3: the claim says a failed attempt's partial uploads are discarded. They
are not: when `720p` fails after `1080p` succeeded, the attempt rejects with
the reason, but the `1080p` output uploaded during the attempt is still in the
object store — `processVideoJob` never deletes a key. -/
theorem c3_counterexample :
    (processVideoJob "7" failing720Tool).outcome = Except.error "boom" ∧
    (processVideoJob "7" failing720Tool).uploaded = ["transcoded/7/1080p.mp4"] ∧
    (processVideoJob "7" failing720Tool).uploaded ≠ [] := by
  decide

/-- C3 (amended): when the variant at position `i` fails after the first `i`
variants succeeded, the attempt aborts the remaining variants (nothing past
position `i` runs or uploads) and rejects with the failing variant's reason —
but the `i` outputs already uploaded this attempt remain in the object store,
undiscarded. -/
theorem c3_abort_and_report (jobId : String) (tool : String → ToolRun) (e : String)
    (i : ℕ) (hi : i < 3)
    (hok : ∀ k, k < i → (tool (variantName k)).result = Except.ok ())
    (hfail : (tool (variantName i)).result = Except.error e) :
    (processVideoJob jobId tool).outcome = Except.error e ∧
    (processVideoJob jobId tool).uploaded =
      (List.range i).map (fun k => transcodeKey jobId (variantName k)) ∧
    (processVideoJob jobId tool).output =
      (List.range i).map (fun k => (variantName k, transcodeKey jobId (variantName k))) := by
  interval_cases i
  · have h0 : (tool "1080p").result = Except.error e := hfail
    simp [processVideoJob, runQualities, qualities, h0]
  · have h0 : (tool "1080p").result = Except.ok () := hok 0 (by omega)
    have h1 : (tool "720p").result = Except.error e := hfail
    simp [processVideoJob, runQualities, qualities, h0, h1, variantName, variantNames,
      List.range_succ]
  · have h0 : (tool "1080p").result = Except.ok () := hok 0 (by omega)
    have h1 : (tool "720p").result = Except.ok () := hok 1 (by omega)
    have h2 : (tool "360p").result = Except.error e := hfail
    simp [processVideoJob, runQualities, qualities, h0, h1, h2, variantName, variantNames,
      List.range_succ]

/-- C3 witness: the amended statement at the concrete tool that fails on
`720p` for job `7`. -/
theorem c3_abort_and_report_witness :
    (processVideoJob "7" failing720Tool).outcome = Except.error "boom" ∧
    (processVideoJob "7" failing720Tool).uploaded =
      (List.range 1).map (fun k => transcodeKey "7" (variantName k)) ∧
    (processVideoJob "7" failing720Tool).output =
      (List.range 1).map (fun k => (variantName k, transcodeKey "7" (variantName k))) :=
  c3_abort_and_report "7" failing720Tool "boom" 1 (by decide) (by decide) (by decide)

/-- C5: with the three configured variants and an always-succeeding tool, the
attempt returns normally, so the job completes with a result map whose keys
are exactly `1080p`, `720p`, `360p`, each bound to that variant's uploaded
object key. -/
theorem c5_completed_with_three_variants (jobId : String) (tool : String → ToolRun)
    (h : ∀ n, (tool n).result = Except.ok ()) :
    jobAfterRun jobId tool =
      ("completed",
        [("1080p", transcodeKey jobId "1080p"), ("720p", transcodeKey jobId "720p"),
          ("360p", transcodeKey jobId "360p")]) := by
  simp [jobAfterRun, processVideoJob, runQualities, qualities, h]

/-- C5 witness: the statement at job `42` and the concrete always-succeeding
tool. -/
theorem c5_completed_with_three_variants_witness :
    jobAfterRun "42" alwaysOkTool =
      ("completed",
        [("1080p", transcodeKey "42" "1080p"), ("720p", transcodeKey "42" "720p"),
          ("360p", transcodeKey "42" "360p")]) :=
  c5_completed_with_three_variants "42" alwaysOkTool (fun _ => rfl)

/-- Helper: a list equation `a1 ++ c :: b1 = a2 ++ c :: b2` in which neither
`a1` nor `a2` contains the separator `c` splits uniquely. -/
theorem sep_split_inj {c : Char} :
    ∀ a1 a2 b1 b2 : List Char, c ∉ a1 → c ∉ a2 →
      a1 ++ c :: b1 = a2 ++ c :: b2 → a1 = a2 ∧ b1 = b2 := by
  intro a1
  induction a1 with
  | nil =>
    intro a2 b1 b2 _ h2 h
    cases a2 with
    | nil => simpa using h
    | cons y ys =>
      simp only [List.nil_append, List.cons_append, List.cons.injEq] at h
      exact absurd (by rw [h.1]; exact List.mem_cons_self y ys) h2
  | cons x xs ih =>
    intro a2 b1 b2 h1 h2 h
    cases a2 with
    | nil =>
      simp only [List.nil_append, List.cons_append, List.cons.injEq] at h
      exact absurd (by rw [← h.1]; exact List.mem_cons_self x xs) h1
    | cons y ys =>
      simp only [List.cons_append, List.cons.injEq] at h
      obtain ⟨hxy, hrest⟩ := h
      obtain ⟨ha, hb⟩ := ih ys b1 b2 (fun hm => h1 (List.mem_cons_of_mem _ hm))
        (fun hm => h2 (List.mem_cons_of_mem _ hm)) hrest
      exact ⟨by rw [hxy, ha], hb⟩

/-- Helper: the characters of an upload key, with the job id and variant name
segments exposed around the separating slash. -/
theorem transcodeKey_data (j n : String) :
    (transcodeKey j n).data =
      "transcoded/".data ++ (j.data ++ '/' :: (n.data ++ ".mp4".data)) := by
  have hslash : ("/" : String).data = ['/'] := rfl
  simp [transcodeKey, String.data_append, hslash, List.append_assoc]

/-- Helper: upload keys built from slash-free job ids and variant names are
injective in the pair (job id, variant name). -/
theorem transcodeKey_inj (j1 j2 n1 n2 : String)
    (hj1 : '/' ∉ j1.data) (hj2 : '/' ∉ j2.data)
    (h : transcodeKey j1 n1 = transcodeKey j2 n2) : j1 = j2 ∧ n1 = n2 := by
  have hd := congrArg String.data h
  rw [transcodeKey_data, transcodeKey_data] at hd
  have hd2 := List.append_cancel_left hd
  obtain ⟨hj, hrest⟩ := sep_split_inj j1.data j2.data _ _ hj1 hj2 hd2
  exact ⟨String.ext hj, String.ext (List.append_cancel_right hrest)⟩

/-- Helper: every key an attempt uploads is the `transcodeKey` of its own job
id and one of the variants of the processed list. -/
theorem runQualities_uploaded_mem (jobId : String) (tool : String → ToolRun) (total : ℕ) :
    ∀ (vs : List Variant) (c : ℕ) (k : String),
      k ∈ (runQualities jobId tool total vs c).uploaded →
        ∃ v ∈ vs, k = transcodeKey jobId v.name := by
  intro vs
  induction vs with
  | nil => intro c k hk; simp [runQualities] at hk
  | cons v rest ih =>
    intro c k hk
    cases hres : (tool v.name).result with
    | error e => simp [runQualities, hres] at hk
    | ok u =>
      simp only [runQualities, hres, List.mem_cons] at hk
      rcases hk with rfl | hk
      · exact ⟨v, List.mem_cons_self v rest, rfl⟩
      · obtain ⟨w, hw, hkw⟩ := ih (c + 1) k hk
        exact ⟨w, List.mem_cons_of_mem v hw, hkw⟩

/-- C7: the claim says two different attempts of the same job never write the
same key. They always do: the key has no attempt component, so the failed
first attempt (tool dies on `720p`) and the successful retry of job `7` both
write `transcoded/7/1080p.mp4`. -/
theorem c7_counterexample :
    "transcoded/7/1080p.mp4" ∈ (processVideoJob "7" failing720Tool).uploaded ∧
    "transcoded/7/1080p.mp4" ∈ (processVideoJob "7" alwaysOkTool).uploaded := by
  decide

/-- C7 (amended): upload keys are namespaced per job and variant only
(`transcoded/JOBID/VARIANT.mp4`), so attempts of the same job reuse
(overwrite) the same keys, while writers for two different jobs (with
slash-free ids, as BullMQ's numeric ids are) can never collide on a key. -/
theorem c7_cross_job_no_collision (j1 j2 : String) (t1 t2 : String → ToolRun) (k : String)
    (hne : j1 ≠ j2) (h1 : '/' ∉ j1.data) (h2 : '/' ∉ j2.data)
    (hk : k ∈ (processVideoJob j1 t1).uploaded) :
    k ∉ (processVideoJob j2 t2).uploaded := by
  intro hk2
  obtain ⟨v, hv, rfl⟩ := runQualities_uploaded_mem j1 t1 qualities.length qualities 0 k hk
  obtain ⟨w, hw, hkw⟩ := runQualities_uploaded_mem j2 t2 qualities.length qualities 0 _ hk2
  exact hne (transcodeKey_inj j1 j2 v.name w.name h1 h2 hkw).1

/-- C7 witness: job `1`'s `1080p` key is never written by job `2`. -/
theorem c7_cross_job_no_collision_witness :
    "transcoded/1/1080p.mp4" ∉ (processVideoJob "2" alwaysOkTool).uploaded :=
  c7_cross_job_no_collision "1" "2" alwaysOkTool alwaysOkTool "transcoded/1/1080p.mp4"
    (by decide) (by decide) (by decide) (by decide)

/-- Helper: whatever a variant's run ends in, its progress ticks are emitted
first, ahead of anything later variants contribute. -/
theorem runQualities_events_head (jobId : String) (tool : String → ToolRun) (total : ℕ)
    (v : Variant) (rest : List Variant) (c : ℕ) :
    ∃ post, (runQualities jobId tool total (v :: rest) c).progressEvents =
      variantProgressEvents c total (tool v.name).ticks ++ post := by
  cases hres : (tool v.name).result with
  | error e => exact ⟨[], by simp [runQualities, hres]⟩
  | ok u =>
    exact ⟨(runQualities jobId tool total rest (c + 1)).progressEvents,
      by simp [runQualities, hres]⟩

/-- Helper: a successful variant contributes its progress ticks and the loop
continues with the completed counter bumped. -/
theorem runQualities_events_ok (jobId : String) (tool : String → ToolRun) (total : ℕ)
    (v : Variant) (rest : List Variant) (c : ℕ)
    (h : (tool v.name).result = Except.ok ()) :
    (runQualities jobId tool total (v :: rest) c).progressEvents =
      variantProgressEvents c total (tool v.name).ticks ++
        (runQualities jobId tool total rest (c + 1)).progressEvents := by
  simp [runQualities, h]

/-- C8: while the worker processes the variant at position `i` (so `i`
variants are already completed), each progress tick with percent `p` (taken
as 0 when ffmpeg emits none) is reported as
`Math.round((i * 100 + p) / 3)` — the job's progress events contain exactly
that mapped block for variant `i`, in tick order. -/
theorem c8_progress_mapping (jobId : String) (tool : String → ToolRun) (i : ℕ)
    (hi : i < 3)
    (hok : ∀ k, k < i → (tool (variantName k)).result = Except.ok ()) :
    ∃ pre post, (processVideoJob jobId tool).progressEvents =
      pre ++ (tool (variantName i)).ticks.map
        (fun p => jsRound (((i : ℚ) * 100 + p.getD 0) / 3)) ++ post := by
  interval_cases i
  · obtain ⟨post, hp⟩ := runQualities_events_head jobId tool qualities.length
      ⟨"1080p", 1920, 1080, "5000k"⟩ [⟨"720p", 1280, 720, "2500k"⟩, ⟨"360p", 640, 360, "1000k"⟩] 0
    refine ⟨[], post, ?_⟩
    have hv : variantName 0 = "1080p" := rfl
    rw [show (processVideoJob jobId tool).progressEvents =
        variantProgressEvents 0 qualities.length (tool "1080p").ticks ++ post from hp, hv]
    simp [variantProgressEvents, qualities]
  · have h0 : (tool "1080p").result = Except.ok () := hok 0 (by omega)
    have e1 : (processVideoJob jobId tool).progressEvents =
        variantProgressEvents 0 qualities.length (tool "1080p").ticks ++
          (runQualities jobId tool qualities.length
            [⟨"720p", 1280, 720, "2500k"⟩, ⟨"360p", 640, 360, "1000k"⟩] 1).progressEvents :=
      runQualities_events_ok jobId tool qualities.length ⟨"1080p", 1920, 1080, "5000k"⟩
        [⟨"720p", 1280, 720, "2500k"⟩, ⟨"360p", 640, 360, "1000k"⟩] 0 h0
    obtain ⟨post, hp⟩ := runQualities_events_head jobId tool qualities.length
      ⟨"720p", 1280, 720, "2500k"⟩ [⟨"360p", 640, 360, "1000k"⟩] 1
    refine ⟨variantProgressEvents 0 qualities.length (tool "1080p").ticks, post, ?_⟩
    have hv : variantName 1 = "720p" := rfl
    rw [e1, hp, hv]
    simp [variantProgressEvents, qualities, List.append_assoc]
  · have h0 : (tool "1080p").result = Except.ok () := hok 0 (by omega)
    have h1 : (tool "720p").result = Except.ok () := hok 1 (by omega)
    have e1 : (processVideoJob jobId tool).progressEvents =
        variantProgressEvents 0 qualities.length (tool "1080p").ticks ++
          (runQualities jobId tool qualities.length
            [⟨"720p", 1280, 720, "2500k"⟩, ⟨"360p", 640, 360, "1000k"⟩] 1).progressEvents :=
      runQualities_events_ok jobId tool qualities.length ⟨"1080p", 1920, 1080, "5000k"⟩
        [⟨"720p", 1280, 720, "2500k"⟩, ⟨"360p", 640, 360, "1000k"⟩] 0 h0
    have e2 : (runQualities jobId tool qualities.length
        [⟨"720p", 1280, 720, "2500k"⟩, ⟨"360p", 640, 360, "1000k"⟩] 1).progressEvents =
          variantProgressEvents 1 qualities.length (tool "720p").ticks ++
            (runQualities jobId tool qualities.length
              [⟨"360p", 640, 360, "1000k"⟩] 2).progressEvents :=
      runQualities_events_ok jobId tool qualities.length ⟨"720p", 1280, 720, "2500k"⟩
        [⟨"360p", 640, 360, "1000k"⟩] 1 h1
    obtain ⟨post, hp⟩ := runQualities_events_head jobId tool qualities.length
      ⟨"360p", 640, 360, "1000k"⟩ [] 2
    refine ⟨variantProgressEvents 0 qualities.length (tool "1080p").ticks ++
      variantProgressEvents 1 qualities.length (tool "720p").ticks, post, ?_⟩
    have hv : variantName 2 = "360p" := rfl
    rw [e1, e2, hp, hv]
    simp [variantProgressEvents, qualities, List.append_assoc]

/-- C8 witness: the mapped block for variant `720p` (position 1) of a run
whose tool ticks once at 50 percent. -/
theorem c8_progress_mapping_witness :
    ∃ pre post, (processVideoJob "9" alwaysOkTool).progressEvents =
      pre ++ (alwaysOkTool (variantName 1)).ticks.map
        (fun p => jsRound (((1 : ℕ) * 100 + p.getD 0) / 3)) ++ post :=
  c8_progress_mapping "9" alwaysOkTool 1 (by decide) (by decide)

/-- C6: once the queue event stream holds a terminal event for the job, the
subscription delivers zero or more progress messages followed by exactly one
terminal message, the server then ends the response, and no later queue event
delivers anything more on that connection. -/
theorem c6_terminal_closes (id : String) (evs : List QueueEvent)
    (h : ∃ e ∈ evs, isTerminalFor id e = true) :
    (∃ ms t, (sseRun id evs).1 = ms ++ [t] ∧ (∀ m ∈ ms, isProgressMsg m = true) ∧
      isTerminalMsg t = true) ∧
    (sseRun id evs).2 = true ∧
    (∀ more, sseRun id (evs ++ more) = sseRun id evs) := by
  induction evs with
  | nil => simp at h
  | cons e rest ih =>
    cases e with
    | progressEv j d =>
      have h' : ∃ e ∈ rest, isTerminalFor id e = true := by
        obtain ⟨e, he, ht⟩ := h
        rcases List.mem_cons.mp he with rfl | hmem
        · simp [isTerminalFor] at ht
        · exact ⟨e, hmem, ht⟩
      obtain ⟨⟨ms, t, hms, hprog, hterm⟩, hclosed, happ⟩ := ih h'
      by_cases hj : j = id
      · subst hj
        refine ⟨⟨SseMessage.progressMsg j d :: ms, t, ?_, ?_, hterm⟩, ?_, ?_⟩
        · simp [sseRun, hms]
        · intro m hm
          rcases List.mem_cons.mp hm with rfl | hm
          · rfl
          · exact hprog m hm
        · simp [sseRun, hclosed]
        · intro more
          simp [sseRun, List.cons_append, happ more]
      · refine ⟨⟨ms, t, ?_, hprog, hterm⟩, ?_, ?_⟩
        · simp [sseRun, hj, hms]
        · simp [sseRun, hj, hclosed]
        · intro more
          simp [sseRun, hj, List.cons_append, happ more]
    | failedEv j r =>
      by_cases hj : j = id
      · subst hj
        refine ⟨⟨[], SseMessage.failedMsg j r "Job Failed", by simp [sseRun], by simp, rfl⟩,
          by simp [sseRun], ?_⟩
        intro more
        simp [sseRun, List.cons_append]
      · have h' : ∃ e ∈ rest, isTerminalFor id e = true := by
          obtain ⟨e, he, ht⟩ := h
          rcases List.mem_cons.mp he with rfl | hmem
          · simp [isTerminalFor, hj] at ht
          · exact ⟨e, hmem, ht⟩
        obtain ⟨hsh, hclosed, happ⟩ := ih h'
        refine ⟨by simpa [sseRun, hj] using hsh, by simpa [sseRun, hj] using hclosed, ?_⟩
        intro more
        simp only [List.cons_append, sseRun, if_neg hj]
        exact happ more
    | completedEv j rv =>
      by_cases hj : j = id
      · subst hj
        refine ⟨⟨[], SseMessage.completedMsg j rv "Job Completed", by simp [sseRun], by simp,
          rfl⟩, by simp [sseRun], ?_⟩
        intro more
        simp [sseRun, List.cons_append]
      · have h' : ∃ e ∈ rest, isTerminalFor id e = true := by
          obtain ⟨e, he, ht⟩ := h
          rcases List.mem_cons.mp he with rfl | hmem
          · simp [isTerminalFor, hj] at ht
          · exact ⟨e, hmem, ht⟩
        obtain ⟨hsh, hclosed, happ⟩ := ih h'
        refine ⟨by simpa [sseRun, hj] using hsh, by simpa [sseRun, hj] using hclosed, ?_⟩
        intro more
        simp only [List.cons_append, sseRun, if_neg hj]
        exact happ more

/-- C6 witness: a subscription to job `1` over a progress event, a completed
event and a late progress event. -/
theorem c6_terminal_closes_witness :
    (∃ ms t, (sseRun "1" [QueueEvent.progressEv "1" 50,
        QueueEvent.completedEv "1" [("720p", "k")], QueueEvent.progressEv "1" 99]).1 =
        ms ++ [t] ∧ (∀ m ∈ ms, isProgressMsg m = true) ∧ isTerminalMsg t = true) ∧
    (sseRun "1" [QueueEvent.progressEv "1" 50, QueueEvent.completedEv "1" [("720p", "k")],
      QueueEvent.progressEv "1" 99]).2 = true ∧
    (∀ more, sseRun "1" ([QueueEvent.progressEv "1" 50,
        QueueEvent.completedEv "1" [("720p", "k")], QueueEvent.progressEv "1" 99] ++ more) =
      sseRun "1" [QueueEvent.progressEv "1" 50, QueueEvent.completedEv "1" [("720p", "k")],
        QueueEvent.progressEv "1" 99]) :=
  c6_terminal_closes "1" [QueueEvent.progressEv "1" 50,
    QueueEvent.completedEv "1" [("720p", "k")], QueueEvent.progressEv "1" 99] (by decide)

/-- C10: a progress subscription for an unknown job id is answered
`404 Job not found` and no event stream is opened; for an existing job the
opened stream's first message — ahead of every live event — is the snapshot
of the job's id, current state and current progress (0 when unset). -/
theorem c10_snapshot_first (id : String) (events : List QueueEvent) (job : QueueJob) :
    progressEndpoint none id events = ProgressResp.notFound 404 "Job not found" ∧
    ∃ live streamDone, progressEndpoint (some job) id events =
      ProgressResp.eventStream 200
        (SseMessage.snapshot job.id job.state (job.progress.getD 0) :: live) streamDone :=
  ⟨rfl, (sseRun id events).1, (sseRun id events).2, rfl⟩

/-- C9: the claim says a request arriving with no accepted file is answered
`400 No video file provided`. That holds only when no file part was posted at
all: a request carrying a rejected file — here a `.txt` — is aborted by
multer with the filter's `Invalid type file` error, which Express answers as
a 500, and the handler's 400 branch never runs. -/
theorem c9_counterexample :
    uploadRequest (some ⟨"clip.txt", 100⟩) = ⟨500, some "Invalid type file", false, none⟩ ∧
    uploadRequest (some ⟨"clip.txt", 100⟩) ≠
      ⟨400, some "No video file provided", false, none⟩ := by
  decide

/-- C9 (amended): a job is created exactly for a posted file whose lowercased
extension is one of `.mp4`, `.avi`, `.mov`, `.webm` and whose size is at most
`500 * 1024 * 1024` bytes. A request with no file part at all is answered
`400 No video file provided` with no job; a posted file failing the filter
aborts the request with the `Invalid type file` error and an oversized
accepted-type file with multer's `LIMIT_FILE_SIZE` error — both answered as
500 by Express's default error handler, with no job created and without ever
reaching the handler's 400 branch. -/
theorem c9_upload_gate :
    (∀ file?, (uploadRequest file?).jobCreated = true ↔
      ∃ f, file? = some f ∧
        lowerStr (extname f.originalname) ∈ ([".mp4", ".avi", ".mov", ".webm"] : List String) ∧
        f.size ≤ 500 * 1024 * 1024) ∧
    uploadRequest none = ⟨400, some "No video file provided", false, none⟩ ∧
    (∀ f : UploadFile,
      lowerStr (extname f.originalname) ∉ ([".mp4", ".avi", ".mov", ".webm"] : List String) →
        uploadRequest (some f) = ⟨500, some "Invalid type file", false, none⟩) ∧
    (∀ f : UploadFile,
      lowerStr (extname f.originalname) ∈ ([".mp4", ".avi", ".mov", ".webm"] : List String) →
        500 * 1024 * 1024 < f.size →
          uploadRequest (some f) = ⟨500, some "LIMIT_FILE_SIZE", false, none⟩) := by
  refine ⟨?_, rfl, ?_, ?_⟩
  · intro file?
    cases file? with
    | none => simp [uploadRequest, multerStage, uploadHandler]
    | some f =>
      by_cases hfa : fileFilterAccepts f.originalname = true
      · have hmem : lowerStr (extname f.originalname) ∈
            ([".mp4", ".avi", ".mov", ".webm"] : List String) := by
          simpa [fileFilterAccepts, allowedExtensions] using hfa
        by_cases hsz : f.size ≤ maxFileSize
        · have hj : uploadRequest (some f) =
              ⟨200, none, true, some "Video uploaded and queued for processing"⟩ := by
            simp [uploadRequest, multerStage, uploadHandler, hfa, hsz]
          rw [hj]
          simp only [true_iff]
          exact ⟨f, rfl, hmem, by simpa [maxFileSize] using hsz⟩
        · have hj : uploadRequest (some f) = ⟨500, some "LIMIT_FILE_SIZE", false, none⟩ := by
            simp [uploadRequest, multerStage, hfa, hsz]
          rw [hj]
          simp only [Bool.false_eq_true, false_iff]
          rintro ⟨g, hg, -, hgsize⟩
          obtain rfl : f = g := Option.some.inj hg
          exact hsz (by simpa [maxFileSize] using hgsize)
      · have hj : uploadRequest (some f) = ⟨500, some "Invalid type file", false, none⟩ := by
          simp [uploadRequest, multerStage, hfa]
        rw [hj]
        simp only [Bool.false_eq_true, false_iff]
        rintro ⟨g, hg, hgmem, -⟩
        obtain rfl : f = g := Option.some.inj hg
        exact hfa (by simpa [fileFilterAccepts, allowedExtensions] using hgmem)
  · intro f hnot
    have hfa : fileFilterAccepts f.originalname = false := by
      rw [fileFilterAccepts]
      rw [Bool.eq_false_iff]
      intro hc
      exact hnot (by simpa [allowedExtensions] using hc)
    simp [uploadRequest, multerStage, hfa]
  · intro f hmem hbig
    have hfa : fileFilterAccepts f.originalname = true := by
      rw [fileFilterAccepts]
      simpa [allowedExtensions] using hmem
    have hsz : ¬ f.size ≤ maxFileSize := by
      rw [maxFileSize]
      omega
    simp [uploadRequest, multerStage, hfa, hsz]

end StreamForge
